import Mathlib

/-!
Shallow embedding of the `DigitalPin` GPIO abstraction
(src/DigitalPin.h, src/DigitalPin.cpp) and of its demo command loop
(src/DigitalPinDriver.cpp).

Modelling choices:
* The libgpiod world visible to the program is split into an `Env`
  (which library calls succeed: chip open, line lookup, line request)
  and a mutable `HW` state (open controller handles, reserved lines,
  electrical line levels as raw `Int` values, since
  `gpiod_line_get_value` returns an `int` that may be negative on error).
* A C++ exception is an `Except String` error value carrying the
  message built at the throw site.
* Each `read`/`write`/destructor call additionally records a trace of
  `Event`s (mutex acquisition/release, the direction check, and every
  hardware access), so that claims about "no hardware access" and about
  ordering relative to the exclusivity lock are statements about the
  trace.
* `std::lock_guard<std::mutex>` acquires the mutex on entry and releases
  it on every exit path, including stack unwinding on `throw`; the trace
  of every call therefore starts with `lockAcquire` and ends with
  `lockRelease`.
-/

/-- `DigitalPin::Direction` (DigitalPin.h lines 26-29). -/
inductive Direction
  | Input
  | Output
deriving DecidableEq

/-- Mutable hardware-world state: how many controller (chip) handles the
process holds open, which line numbers it has reserved, and the raw
electrical level `gpiod_line_get_value` would report for each line. -/
structure HW where
  openControllers : Nat
  reservedLines : List Int
  lineLevels : Int → Int

/-- Outcomes of the libgpiod calls made during construction:
whether `gpiod_chip_open_by_number(0)` succeeds, whether
`gpiod_chip_get_line` finds the line, and whether `gpiod_line_request`
accepts the direction-scoped reservation. -/
structure Env where
  chipOpenOk : Bool
  lineExists : Int → Bool
  requestOk : Int → Direction → Bool

/-- Observable events of one member-function call. -/
inductive Event
  | lockAcquire
  | directionCheck
  | lineGetValue (pin : Int)
  | lineSetValue (pin : Int) (v : Int)
  | lineRelease (pin : Int)
  | chipClose
  | lockRelease
deriving DecidableEq

/-- The fields of a `DigitalPin` object (DigitalPin.h lines 72-77).
The raw pointers `chip_` and `line_` are modelled by whether they are
non-null. -/
structure DigitalPin where
  pinNumber_ : Int
  direction_ : Direction
  name_ : String
  chip_ : Bool
  line_ : Bool
deriving DecidableEq

/-- Result of one member-function call: the C++ return value or thrown
exception, the object state after the call, the hardware world after the
call, and the trace of observable events. -/
structure OpResult (α : Type) where
  ret : Except String α
  pin : DigitalPin
  hw : HW
  events : List Event

/-- `DigitalPin::DigitalPin` (DigitalPin.cpp lines 53-77).
The member initializer list sets `name_` to the generated
`"Pin" + std::to_string(pinNumber)` exactly when the supplied `name`
is empty.  The body opens chip 0, resolves the line, and requests it
with the direction-scoped config; on the line-lookup failure and on the
request failure it calls `gpiod_chip_close(chip_)` before throwing.
Returns the constructed object or the thrown exception, plus the
hardware world after the call. -/
def construct (env : Env) (hw : HW) (pinNumber : Int) (dir : Direction)
    (name : String) : Except String DigitalPin × HW :=
  let name_ := if name = "" then "Pin" ++ toString pinNumber else name
  if env.chipOpenOk = false then
    (.error "Failed to open GPIO chip", hw)
  else
    let hw1 : HW := { hw with openControllers := hw.openControllers + 1 }
    if env.lineExists pinNumber = false then
      (.error ("Failed to access GPIO line for pin number " ++ toString pinNumber),
       { hw1 with openControllers := hw1.openControllers - 1 })
    else if env.requestOk pinNumber dir = false then
      (.error "Failed to configure GPIO pin",
       { hw1 with openControllers := hw1.openControllers - 1 })
    else
      (.ok { pinNumber_ := pinNumber, direction_ := dir, name_ := name_,
             chip_ := true, line_ := true },
       { hw1 with reservedLines := pinNumber :: hw1.reservedLines })

/-- `DigitalPin`'s declaration gives `name` the default argument `""`
(DigitalPin.h line 40), so a call that supplies no label is a call that
supplies the empty string. -/
def constructDefault (env : Env) (hw : HW) (pinNumber : Int)
    (dir : Direction) : Except String DigitalPin × HW :=
  construct env hw pinNumber dir ""

/-- `gpiod_line_set_value` on line `n`: point update of the level map. -/
def HW.setLine (hw : HW) (n : Int) (v : Int) : HW :=
  { hw with lineLevels := fun m => if m = n then v else hw.lineLevels m }

/-- `DigitalPin::read` (DigitalPin.cpp lines 88-94): acquire `mutex_`,
check the direction while holding the lock, throw on an
output-configured pin without touching the line, otherwise return
`gpiod_line_get_value(line_) > 0`. -/
def DigitalPin.read (p : DigitalPin) (hw : HW) : OpResult Bool :=
  if p.direction_ ≠ Direction.Input then
    { ret := .error "Attempted to read from an output-configured pin.",
      pin := p, hw := hw,
      events := [.lockAcquire, .directionCheck, .lockRelease] }
  else
    { ret := .ok (decide (hw.lineLevels p.pinNumber_ > 0)),
      pin := p, hw := hw,
      events := [.lockAcquire, .directionCheck, .lineGetValue p.pinNumber_,
                 .lockRelease] }

/-- `DigitalPin::write` (DigitalPin.cpp lines 96-102): acquire `mutex_`,
check the direction while holding the lock, throw on an
input-configured pin without touching the line, otherwise set the line
to `value ? 1 : 0`. -/
def DigitalPin.write (p : DigitalPin) (value : Bool) (hw : HW) : OpResult Unit :=
  if p.direction_ ≠ Direction.Output then
    { ret := .error "Attempted to write to an input-configured pin.",
      pin := p, hw := hw,
      events := [.lockAcquire, .directionCheck, .lockRelease] }
  else
    { ret := .ok (), pin := p,
      hw := hw.setLine p.pinNumber_ (if value then 1 else 0),
      events := [.lockAcquire, .directionCheck,
                 .lineSetValue p.pinNumber_ (if value then 1 else 0),
                 .lockRelease] }

/-- `DigitalPin::getName` (DigitalPin.cpp lines 104-106): returns the
`name_` field; a pure function with no side effects. -/
def DigitalPin.getName (p : DigitalPin) : String :=
  p.name_

/-- `DigitalPin::~DigitalPin` (DigitalPin.cpp lines 79-86): release the
line if `line_` is non-null, then close the chip if `chip_` is non-null.
A total function: a C++ destructor must not throw, and this one contains
no throwing operation. -/
def DigitalPin.destroy (p : DigitalPin) (hw : HW) : OpResult Unit :=
  let step1 : HW × List Event :=
    if p.line_ then
      ({ hw with reservedLines := hw.reservedLines.erase p.pinNumber_ },
       [.lineRelease p.pinNumber_])
    else (hw, [])
  let step2 : HW × List Event :=
    if p.chip_ then
      ({ step1.1 with openControllers := step1.1.openControllers - 1 },
       [.chipClose])
    else (step1.1, [])
  { ret := .ok (), pin := { p with chip_ := false, line_ := false },
    hw := step2.1, events := step1.2 ++ step2.2 }

/-- Concrete hardware world used to instantiate theorems. -/
def hw0 : HW :=
  { openControllers := 1, reservedLines := [17], lineLevels := fun _ => 0 }

/-- A concrete output-configured pin, as `main` constructs it
(DigitalPinDriver.cpp line 39). -/
def pinOut17 : DigitalPin :=
  { pinNumber_ := 17, direction_ := .Output, name_ := "LED",
    chip_ := true, line_ := true }

/-- A concrete input-configured pin, as `main` constructs it
(DigitalPinDriver.cpp line 42). -/
def pinIn27 : DigitalPin :=
  { pinNumber_ := 27, direction_ := .Input, name_ := "Button",
    chip_ := true, line_ := true }

/-- An environment in which every libgpiod call succeeds. -/
def envOK : Env :=
  { chipOpenOk := true, lineExists := fun _ => true,
    requestOk := fun _ _ => true }

/-- An environment in which the chip opens but no line exists. -/
def envNoLine : Env :=
  { chipOpenOk := true, lineExists := fun _ => false,
    requestOk := fun _ _ => true }

/-- C1: on a pin constructed with direction `Output`, `read()` throws
the wrong-direction error, leaves the hardware world untouched, and its
event trace is exactly lock acquisition, the direction check, and lock
release — no line is queried or modified, and the direction check
happens while the exclusivity lock is held. -/
theorem read_output_fails (p : DigitalPin) (hw : HW)
    (h : p.direction_ = Direction.Output) :
    (p.read hw).ret = .error "Attempted to read from an output-configured pin." ∧
    (p.read hw).hw = hw ∧
    (p.read hw).events = [.lockAcquire, .directionCheck, .lockRelease] := by
  simp [DigitalPin.read, h]

theorem read_output_fails_witness :
    (pinOut17.read hw0).ret = .error "Attempted to read from an output-configured pin." ∧
    (pinOut17.read hw0).hw = hw0 ∧
    (pinOut17.read hw0).events = [.lockAcquire, .directionCheck, .lockRelease] :=
  read_output_fails pinOut17 hw0 rfl

/-- C2: on a pin constructed with direction `Input`, `write(value)` for
any boolean value throws the wrong-direction error, leaves the hardware
world (hence the line's electrical state) unchanged, and its event
trace contains no hardware access. -/
theorem write_input_fails (p : DigitalPin) (v : Bool) (hw : HW)
    (h : p.direction_ = Direction.Input) :
    (p.write v hw).ret = .error "Attempted to write to an input-configured pin." ∧
    (p.write v hw).hw = hw ∧
    (p.write v hw).events = [.lockAcquire, .directionCheck, .lockRelease] := by
  simp [DigitalPin.write, h]

theorem write_input_fails_witness :
    (pinIn27.write true hw0).ret = .error "Attempted to write to an input-configured pin." ∧
    (pinIn27.write true hw0).hw = hw0 ∧
    (pinIn27.write true hw0).events = [.lockAcquire, .directionCheck, .lockRelease] :=
  write_input_fails pinIn27 true hw0 rfl

/-- C5: on a pin constructed with direction `Input`, `read()` returns
`true` exactly when the raw value `gpiod_line_get_value` reports is
greater than zero — `false` for zero and for any negative raw value —
and leaves the hardware world unchanged. -/
theorem read_input_ok (p : DigitalPin) (hw : HW)
    (h : p.direction_ = Direction.Input) :
    (p.read hw).ret = .ok (decide (hw.lineLevels p.pinNumber_ > 0)) ∧
    ((p.read hw).ret = .ok true ↔ 0 < hw.lineLevels p.pinNumber_) ∧
    (p.read hw).hw = hw := by
  refine ⟨?_, ?_, ?_⟩ <;> simp [DigitalPin.read, h]

/-- A hardware world in which line 27 reads back the error value `-1`. -/
def hwNeg : HW :=
  { openControllers := 1, reservedLines := [27], lineLevels := fun _ => -1 }

theorem read_input_ok_witness :
    (pinIn27.read hwNeg).ret = .ok (decide (hwNeg.lineLevels pinIn27.pinNumber_ > 0)) ∧
    ((pinIn27.read hwNeg).ret = .ok true ↔ 0 < hwNeg.lineLevels pinIn27.pinNumber_) ∧
    (pinIn27.read hwNeg).hw = hwNeg :=
  read_input_ok pinIn27 hwNeg rfl

/-- C3: whenever construction fails after the chip was successfully
opened (the line does not exist, or the direction-scoped request is
rejected), the hardware world left behind equals the initial one: the
opened controller handle was closed again and no line reservation
remains. -/
theorem construct_no_leak_on_failure (env : Env) (hw : HW) (n : Int)
    (dir : Direction) (name : String) (e : String)
    (hopen : env.chipOpenOk = true)
    (herr : (construct env hw n dir name).1 = .error e) :
    (construct env hw n dir name).2 = hw := by
  unfold construct at herr ⊢
  rw [hopen] at herr ⊢
  simp only [Bool.true_eq_false, if_false] at herr ⊢
  by_cases hline : env.lineExists n = false
  · simp [hline]
  · rw [Bool.not_eq_false] at hline
    simp only [hline, Bool.true_eq_false, if_false] at herr ⊢
    by_cases hreq : env.requestOk n dir = false
    · simp [hreq]
    · rw [Bool.not_eq_false] at hreq
      simp [hreq] at herr

theorem construct_no_leak_on_failure_witness :
    (construct envNoLine hw0 99 Direction.Output "").2 = hw0 :=
  construct_no_leak_on_failure envNoLine hw0 99 Direction.Output ""
    "Failed to access GPIO line for pin number 99" rfl rfl

/-- The concrete pin record a successful `construct envOK hw0 5 Input "x"`
produces. -/
def pin5x : DigitalPin :=
  { pinNumber_ := 5, direction_ := .Input, name_ := "x",
    chip_ := true, line_ := true }

/-- C6: on every successfully constructed pin, `getName()` returns the
label supplied at construction verbatim when it was non-empty, and the
generated default `"Pin" + std::to_string(pinNumber)` when the supplied
label was empty; `getName` is a pure function of the object, so it has
no side effects. -/
theorem getName_spec (env : Env) (hw : HW) (n : Int) (dir : Direction)
    (name : String) (p : DigitalPin)
    (h : (construct env hw n dir name).1 = .ok p) :
    p.getName = if name = "" then "Pin" ++ toString n else name := by
  unfold construct at h
  by_cases hopen : env.chipOpenOk = false
  · simp [hopen] at h
  · rw [Bool.not_eq_false] at hopen
    simp only [hopen, Bool.true_eq_false, if_false] at h
    by_cases hline : env.lineExists n = false
    · simp [hline] at h
    · rw [Bool.not_eq_false] at hline
      simp only [hline, Bool.true_eq_false, if_false] at h
      by_cases hreq : env.requestOk n dir = false
      · simp [hreq] at h
      · rw [Bool.not_eq_false] at hreq
        simp only [hreq, Bool.true_eq_false, if_false, Except.ok.injEq] at h
        subst h
        rfl

theorem getName_spec_witness :
    pin5x.getName = if "x" = "" then "Pin" ++ toString (5 : Int) else "x" :=
  getName_spec envOK hw0 5 Direction.Input "x" pin5x rfl

/-- C10: constructing with an explicitly supplied empty-string label
yields a pin whose label is the generated default
`"Pin" + std::to_string(pinNumber)` — never the empty string — and the
call is literally the same call as supplying no label at all, since the
declaration's default argument is `""`. -/
theorem empty_label_default (env : Env) (hw : HW) (n : Int)
    (dir : Direction) (p : DigitalPin)
    (h : (construct env hw n dir "").1 = .ok p) :
    p.getName = "Pin" ++ toString n ∧
    p.getName ≠ "" ∧
    construct env hw n dir "" = constructDefault env hw n dir := by
  have hname := getName_spec env hw n dir "" p h
  simp only [if_pos rfl] at hname
  refine ⟨hname, ?_, rfl⟩
  rw [hname]
  intro hcontra
  have hlen := congrArg String.length hcontra
  simp [String.length_append] at hlen
  exact absurd hlen.1 (by decide)

/-- The concrete pin record a successful `construct envOK hw0 7 Output ""`
produces. -/
def pin7 : DigitalPin :=
  { pinNumber_ := 7, direction_ := .Output, name_ := "Pin7",
    chip_ := true, line_ := true }

theorem empty_label_default_witness :
    pin7.getName = "Pin" ++ toString (7 : Int) ∧
    pin7.getName ≠ "" ∧
    construct envOK hw0 7 Direction.Output "" = constructDefault envOK hw0 7 Direction.Output :=
  empty_label_default envOK hw0 7 Direction.Output pin7 rfl

/-- C7: the destructor never fails, and its event trace releases the
line first (only when `line_` was acquired) and closes the chip second
(only when `chip_` was opened): with both resources held the trace is
exactly `[lineRelease, chipClose]`; a step whose resource was never
acquired is silently skipped, contributing no event. -/
theorem destroy_releases_in_order (p : DigitalPin) (hw : HW) :
    (p.destroy hw).ret = .ok () ∧
    (p.line_ = true → p.chip_ = true →
      (p.destroy hw).events = [Event.lineRelease p.pinNumber_, Event.chipClose]) ∧
    (p.line_ = false → Event.lineRelease p.pinNumber_ ∉ (p.destroy hw).events) ∧
    (p.chip_ = false → Event.chipClose ∉ (p.destroy hw).events) := by
  refine ⟨rfl, ?_, ?_, ?_⟩
  · intro hl hc
    simp [DigitalPin.destroy, hl, hc]
  · intro hl
    cases hc : p.chip_ <;> simp [DigitalPin.destroy, hl, hc]
  · intro hc
    cases hl : p.line_ <;> simp [DigitalPin.destroy, hl, hc]

theorem destroy_releases_in_order_witness :
    (pinOut17.destroy hw0).ret = .ok () ∧
    (pinOut17.destroy hw0).events = [Event.lineRelease 17, Event.chipClose] :=
  ⟨(destroy_releases_in_order pinOut17 hw0).1,
   (destroy_releases_in_order pinOut17 hw0).2.1 rfl rfl⟩

/-- C8: no operation changes the `direction_` field: the object state
after `read`, after `write`, and after the destructor carries the
direction fixed at construction.  (`getName` does not appear because it
is embedded as a pure function of the object — it returns `name_` and
can change nothing.) -/
theorem direction_immutable (p : DigitalPin) (v : Bool) (hw : HW) :
    (p.read hw).pin.direction_ = p.direction_ ∧
    (p.write v hw).pin.direction_ = p.direction_ ∧
    (p.destroy hw).pin.direction_ = p.direction_ := by
  refine ⟨?_, ?_, rfl⟩
  · unfold DigitalPin.read
    split <;> rfl
  · unfold DigitalPin.write
    split <;> rfl

/-- The demo command loop (DigitalPinDriver.cpp lines 46-69),
parameterized by the two pins `main` constructed, the hardware world,
the remaining characters of the input stream, and the console lines
printed so far.  Each iteration reads one command character and
dispatches on it exactly as the `switch` does; `'q'` clears `running`
and leaves the loop; an exhausted input stream ends the loop.  A C++
exception thrown by `write`/`read` propagates out of the loop as the
`.error` case, carrying the output printed before the throw. -/
def commandLoop (outputPin inputPin : DigitalPin) :
    HW → List Char → List String →
    Except (String × List String) (HW × List String)
  | hw, [], out => .ok (hw, out)
  | hw, c :: rest, out =>
    if c = '1' then
      let r := outputPin.write true hw
      match r.ret with
      | .error e => .error (e, out)
      | .ok _ => commandLoop outputPin inputPin r.hw rest (out ++ ["LED turned ON."])
    else if c = '0' then
      let r := outputPin.write false hw
      match r.ret with
      | .error e => .error (e, out)
      | .ok _ => commandLoop outputPin inputPin r.hw rest (out ++ ["LED turned OFF."])
    else if c = 'r' then
      let r := inputPin.read hw
      match r.ret with
      | .error e => .error (e, out)
      | .ok b => commandLoop outputPin inputPin r.hw rest
          (out ++ ["Button state: " ++ (if b then "Pressed" else "Not pressed")])
    else if c = 'q' then
      .ok (hw, out)
    else
      commandLoop outputPin inputPin hw rest (out ++ ["Invalid command."])

/-- The `try { ... while (running) { ... } } catch (...)` structure of
`main` (DigitalPinDriver.cpp lines 37 and 70-72) around the command
loop: the catch block sits OUTSIDE the `while`, so an exception thrown
during command processing exits the loop and is reported as
`"Error: " + e.what()`.  Returns the console lines printed. -/
def commandLoopCaught (outputPin inputPin : DigitalPin) (hw : HW)
    (cmds : List Char) : List String :=
  match commandLoop outputPin inputPin hw cmds [] with
  | .ok (_, out) => out
  | .error (e, out) => out ++ ["Error: " ++ e]

/-- Command `c`, processed from hardware world `hw`, makes the
`write`/`read` call of its `switch` case throw the exception `e`:
`'1'` calls `write(true)` on the output pin, `'0'` calls `write(false)`
on the output pin, `'r'` calls `read()` on the input pin. -/
def commandFails (outputPin inputPin : DigitalPin) (hw : HW) (c : Char)
    (e : String) : Prop :=
  (c = '1' ∧ (outputPin.write true hw).ret = .error e) ∨
  (c = '0' ∧ (outputPin.write false hw).ret = .error e) ∨
  (c = 'r' ∧ (inputPin.read hw).ret = .error e)

/-- C4 counterexample: run the command loop with an output pin whose
`write` throws (an input-configured pin) on the command sequence
`['1', '0']`.  The failure of the `'1'` command is reported as a
visible `"Error: ..."` message — but the `'0'` command that follows is
never processed (its `"LED turned OFF."` line is absent): the loop
terminated instead of continuing, because the catch block encloses the
whole loop.  This refutes the claim that the command loop continues
accepting further commands after a reported failure. -/
theorem loop_stops_after_error_cex :
    commandLoopCaught pinIn27 pinIn27 hw0 ['1', '0'] =
      ["Error: Attempted to write to an input-configured pin."] ∧
    "LED turned OFF." ∉ commandLoopCaught pinIn27 pinIn27 hw0 ['1', '0'] := by
  constructor
  · rfl
  · decide

/-- Helper for C4: a command prefix that the loop processes successfully
(running off its end, so it contains no quit command) composes with the
remaining stream: the loop on `pre ++ cmds` first replays `pre` and then
continues on `cmds` from the hardware world and printed output that
`pre` produced. -/
theorem commandLoop_append (outputPin inputPin : DigitalPin) (pre : List Char) :
    ∀ (hw : HW) (out : List String) (hw' : HW) (out' : List String),
    'q' ∉ pre →
    commandLoop outputPin inputPin hw pre out = .ok (hw', out') →
    ∀ cmds, commandLoop outputPin inputPin hw (pre ++ cmds) out =
      commandLoop outputPin inputPin hw' cmds out' := by
  induction pre with
  | nil =>
    intro hw out hw' out' _ h cmds
    simp only [commandLoop, Except.ok.injEq, Prod.mk.injEq] at h
    rw [List.nil_append, h.1, h.2]
  | cons c cs ih =>
    intro hw out hw' out' hq h cmds
    have hcq : ¬(c = 'q') := fun hc => hq (hc ▸ List.mem_cons_self c cs)
    have hcsq : 'q' ∉ cs := fun hm => hq (List.mem_cons_of_mem c hm)
    rw [List.cons_append]
    by_cases h1 : c = '1'
    · subst h1
      simp only [commandLoop, if_pos rfl] at h ⊢
      cases hr : (outputPin.write true hw).ret with
      | error e =>
        simp only [hr, if_true] at h
        exact Except.noConfusion h
      | ok u =>
        simp only [hr, if_true] at h ⊢
        exact ih _ _ _ _ hcsq h cmds
    · by_cases h0 : c = '0'
      · subst h0
        simp only [commandLoop, if_neg (by decide : ¬('0' = '1')), if_pos rfl] at h ⊢
        cases hr : (outputPin.write false hw).ret with
        | error e =>
          simp only [hr, if_true] at h
          exact Except.noConfusion h
        | ok u =>
          simp only [hr, if_true] at h ⊢
          exact ih _ _ _ _ hcsq h cmds
      · by_cases hra : c = 'r'
        · subst hra
          simp only [commandLoop, if_neg (by decide : ¬('r' = '1')),
            if_neg (by decide : ¬('r' = '0')), if_pos rfl] at h ⊢
          cases hr : (inputPin.read hw).ret with
          | error e =>
            simp only [hr, if_true] at h
            exact Except.noConfusion h
          | ok b =>
            simp only [hr, if_true] at h ⊢
            exact ih _ _ _ _ hcsq h cmds
        · simp only [commandLoop, if_neg h1, if_neg h0, if_neg hra,
            if_neg hcq] at h ⊢
          exact ih _ _ _ _ hcsq h cmds

/-- C4 amended: any failure raised by a `read` or `write` call while
processing a command — whichever of the `'1'`/`'0'`/`'r'` cases threw,
and at any position in the command stream after any successfully
processed prefix — is caught and reported once as a visible
`"Error: ..."` message, but the command loop then terminates rather
than continuing: whatever commands remain after the failing one, the
printed output is exactly the prefix's output followed by the single
error line, and none of the remaining commands is processed. -/
theorem loop_error_reported_then_terminates
    (outputPin inputPin : DigitalPin) (hw hwPre : HW) (pre : List Char)
    (outPre : List String) (c : Char) (rest : List Char) (e : String)
    (hq : 'q' ∉ pre)
    (hpre : commandLoop outputPin inputPin hw pre [] = .ok (hwPre, outPre))
    (hfail : commandFails outputPin inputPin hwPre c e) :
    commandLoopCaught outputPin inputPin hw (pre ++ c :: rest) =
      outPre ++ ["Error: " ++ e] := by
  unfold commandLoopCaught
  rw [commandLoop_append outputPin inputPin pre hw [] hwPre outPre hq hpre
    (c :: rest)]
  rcases hfail with ⟨hc, hf⟩ | ⟨hc, hf⟩ | ⟨hc, hf⟩
  · subst hc
    simp only [commandLoop, if_pos rfl, hf, if_true]
  · subst hc
    simp only [commandLoop, if_neg (by decide : ¬('0' = '1')), if_pos rfl, hf,
      if_true]
  · subst hc
    simp only [commandLoop, if_neg (by decide : ¬('r' = '1')),
      if_neg (by decide : ¬('r' = '0')), if_pos rfl, hf, if_true]

theorem loop_error_reported_then_terminates_witness :
    commandLoopCaught pinOut17 pinOut17 hw0 (['1', 'z'] ++ 'r' :: ['0', 'q']) =
      ["LED turned ON.", "Invalid command."] ++
        ["Error: Attempted to read from an output-configured pin."] :=
  loop_error_reported_then_terminates pinOut17 pinOut17 hw0
    (hw0.setLine 17 1) ['1', 'z'] ["LED turned ON.", "Invalid command."]
    'r' ['0', 'q'] "Attempted to read from an output-configured pin."
    (by decide) rfl (Or.inr (Or.inr ⟨rfl, rfl⟩))
